import Mathlib

/-!
# gfontpreview: the `/fonts` handler of `main.go`

A shallow embedding of `src/go/main.go`.  The program keeps two package-level
variables, the catalog `fonts` and the font-file cache `googleFontFiles`, and
serves one handler.  The handler is embedded as a function from the catalog,
the cache, the behaviour of the network at the time of the request and the
request itself to the response written, the new cache, the list of effects
performed and the way the call ended (return, or `log.Fatal`).

Functions of packages outside the repository (`encoding/json` string quoting,
`truetype.Parse`, `freetype.Context.DrawString`, `png.Encode`) are taken as
parameters, collected in `Lib`.  Requests are handled one after the other.
-/

set_option maxRecDepth 100000

namespace GFontPreview

/-! ## Data model -/

/-- Contents of a Go byte slice. -/
abbrev Bytes := List Nat

/-- A Go value of type `[]byte`: `none` is the nil slice, `some l` a non-nil
slice (possibly of length zero). -/
abbrev ByteSlice := Option Bytes

/-- The UTF-8 bytes of one character. -/
def charBytes (c : Char) : Bytes :=
  let n := c.toNat
  if n < 0x80 then [n]
  else if n < 0x800 then [0xC0 + n / 64, 0x80 + n % 64]
  else if n < 0x10000 then [0xE0 + n / 4096, 0x80 + n / 64 % 64, 0x80 + n % 64]
  else [0xF0 + n / 262144, 0x80 + n / 4096 % 64, 0x80 + n / 64 % 64, 0x80 + n % 64]

/-- The bytes of a Go string (UTF-8). -/
def stringBytes (s : String) : Bytes :=
  s.toList.flatMap charBytes

/-- The struct `GoogleFontFiles` (lines 21-24). -/
structure GoogleFontFiles where
  Regular : String
  Italic : String
deriving DecidableEq, Repr

/-- The struct `GoogleFont` (lines 30-40).  Slices are `none` when nil. -/
structure GoogleFont where
  Family : String
  Variants : Option (List String)
  Subsets : Option (List String)
  Version : String
  LastModified : String
  Files : GoogleFontFiles
  Category : String
  Kind : String
  Menu : String
deriving DecidableEq, Repr

/-- The type `GoogleFontsList []GoogleFont` (line 42): `none` is the nil slice. -/
abbrev GoogleFontsList := Option (List GoogleFont)

/-- The type `GoogleFontFilesMap map[string][]byte` (line 26), as an association
list with at most one pair per key. -/
abbrev GoogleFontFilesMap := List (String × ByteSlice)

/-- The Go expression `make(GoogleFontFilesMap)` (line 181). -/
def makeGoogleFontFilesMap : GoogleFontFilesMap := []

/-- The Go expression `m[k]` on a map: the stored value, or the zero value (the nil
slice) when the key is absent. -/
def mapIndex : GoogleFontFilesMap → String → ByteSlice
  | [], _ => none
  | (k', v) :: rest, k => if k' = k then v else mapIndex rest k

/-- Whether the map has an entry under the key. -/
def mapHasKey : GoogleFontFilesMap → String → Bool
  | [], _ => false
  | (k', _) :: rest, k => if k' = k then true else mapHasKey rest k

/-- The Go statement `m[k] = v` on a map. -/
def mapAssign : GoogleFontFilesMap → String → ByteSlice → GoogleFontFilesMap
  | [], k, v => [(k, v)]
  | (k', v') :: rest, k, v =>
    if k' = k then (k, v) :: rest else (k', v') :: mapAssign rest k v

/-! ## The request and the response writer -/

/-- The type `url.Values`: each key with its list of values. -/
abbrev Values := List (String × List String)

/-- The method `url.Values.Get`: the first value under the key, `""` when there
is none. -/
def valuesGet (v : Values) (key : String) : String :=
  match v.lookup key with
  | some (x :: _) => x
  | _ => ""

/-- The part of `*http.Request` the handler reads: `r.URL.Query()`. -/
structure Request where
  query : Values
deriving DecidableEq, Repr

/-- The state of an `http.ResponseWriter`: the header map, the status line once it
has been written, and the body bytes written so far. -/
structure ResponseWriter where
  header : List (String × String)
  status : Option Nat
  body : Bytes
deriving DecidableEq, Repr

/-- A response writer as the server hands it to the handler. -/
def newResponseWriter : ResponseWriter := ⟨[], none, []⟩

/-- The method `Header.Del`. -/
def headerDel (h : List (String × String)) (k : String) : List (String × String) :=
  h.filter (fun p => p.1 != k)

/-- The method `Header.Set`: the key holds exactly this value afterwards. -/
def headerSet (h : List (String × String)) (k v : String) : List (String × String) :=
  headerDel h k ++ [(k, v)]

/-- The method `Header.Get`. -/
def headerGet (h : List (String × String)) (k : String) : String :=
  (h.lookup k).getD ""

/-- The call `w.Header().Set(k, v)`. -/
def ResponseWriter.setHeader (w : ResponseWriter) (k v : String) : ResponseWriter :=
  { w with header := headerSet w.header k v }

/-- The method `WriteHeader`: the first status written stands. -/
def ResponseWriter.WriteHeader (w : ResponseWriter) (code : Nat) : ResponseWriter :=
  match w.status with
  | some _ => w
  | none => { w with status := some code }

/-- The method `Write`: writes status 200 first if no status was written yet. -/
def ResponseWriter.Write (w : ResponseWriter) (b : Bytes) : ResponseWriter :=
  let w1 := w.WriteHeader 200
  { w1 with body := w1.body ++ b }

/-- The constants `http.StatusBadRequest` and `http.StatusNotFound`. -/
def StatusBadRequest : Nat := 400
def StatusNotFound : Nat := 404

/-- The function `http.Error`: plain-text headers, the status, the message and a
newline. -/
def httpError (w : ResponseWriter) (error : String) (code : Nat) : ResponseWriter :=
  let w1 := { w with header := headerDel w.header "Content-Length" }
  let w2 := w1.setHeader "Content-Type" "text/plain; charset=utf-8"
  let w3 := w2.setHeader "X-Content-Type-Options" "nosniff"
  (w3.WriteHeader code).Write (stringBytes (error ++ "\n"))

/-! ## Images and the drawing context -/

/-- The type `image.Rectangle`. -/
structure Rectangle where
  minX : Int
  minY : Int
  maxX : Int
  maxY : Int
deriving DecidableEq, Repr

/-- The function `image.Rect` on already ordered corners. -/
def Rect (x0 y0 x1 y1 : Int) : Rectangle := ⟨x0, y0, x1, y1⟩

def Rectangle.Dx (r : Rectangle) : Nat := (r.maxX - r.minX).toNat
def Rectangle.Dy (r : Rectangle) : Nat := (r.maxY - r.minY).toNat

/-- The type `image.RGBA`: four bytes per pixel, rows top to bottom. -/
structure RGBA where
  pix : List Nat
  stride : Nat
  rect : Rectangle
deriving DecidableEq, Repr

/-- The function `image.NewRGBA`: every byte zero. -/
def NewRGBA (r : Rectangle) : RGBA :=
  ⟨List.replicate (4 * r.Dx * r.Dy) 0, 4 * r.Dx, r⟩

def RGBA.Bounds (m : RGBA) : Rectangle := m.rect

/-- A uniform colour image (`image.Uniform`), by its 8-bit RGBA components. -/
structure Uniform where
  r : Nat
  g : Nat
  b : Nat
  a : Nat
deriving DecidableEq, Repr

/-- The variables `image.Black` and `image.White`. -/
def Black : Uniform := ⟨0, 0, 0, 255⟩
def White : Uniform := ⟨255, 255, 255, 255⟩

/-- The call `draw.Draw(dst, dst.Bounds(), src, image.ZP, draw.Src)` with a uniform
source: every pixel of the image becomes the colour. -/
def drawSrc (dst : RGBA) (src : Uniform) : RGBA :=
  { dst with pix := (List.replicate (dst.rect.Dx * dst.rect.Dy) [src.r, src.g, src.b, src.a]).flatten }

/-- The type `fixed.Point26_6`. -/
structure Point26_6 where
  X : Int
  Y : Int
deriving DecidableEq, Repr

/-- The function `freetype.Pt`: pixel coordinates to 26.6 fixed point. -/
def Pt (x y : Int) : Point26_6 := ⟨x * 64, y * 64⟩

/-- The settings of a `freetype.Context` that the handler touches. -/
structure Context (Font : Type) where
  f : Option Font
  fontSize : Nat
  dpi : Nat
  clip : Rectangle
  dst : Option RGBA
  src : Option Uniform

/-- The function `freetype.NewContext`: 12 pt at 72 DPI, nothing else set. -/
def NewContext (Font : Type) : Context Font :=
  ⟨none, 12, 72, Rect 0 0 0 0, none, none⟩

def Context.SetDPI {Font : Type} (c : Context Font) (dpi : Nat) : Context Font :=
  { c with dpi := dpi }
def Context.SetFont {Font : Type} (c : Context Font) (f : Option Font) : Context Font :=
  { c with f := f }
def Context.SetFontSize {Font : Type} (c : Context Font) (n : Nat) : Context Font :=
  { c with fontSize := n }
def Context.SetClip {Font : Type} (c : Context Font) (r : Rectangle) : Context Font :=
  { c with clip := r }
def Context.SetDst {Font : Type} (c : Context Font) (m : RGBA) : Context Font :=
  { c with dst := some m }
def Context.SetSrc {Font : Type} (c : Context Font) (u : Uniform) : Context Font :=
  { c with src := some u }

/-! ## Functions of other packages -/

/-- The functions of other packages that the program calls, as parameters.
`jsonString` is the quoting of a string by `encoding/json`; `unmarshalItems` is the
field `Items` after `json.Unmarshal` into a zero `GoogleFontsListResponse`;
`Parse` is `truetype.Parse`; `DrawString` gives the destination image after
`c.DrawString(s, p)`; `pngEncode` gives the bytes `png.Encode` wrote to the buffer
and its error. -/
structure Lib (Font : Type) where
  jsonString : String → String
  unmarshalItems : Bytes → GoogleFontsList
  Parse : Bytes → Except String Font
  DrawString : Context Font → String → Point26_6 → RGBA
  pngEncode : RGBA → Bytes × Option String

/-! ## The network -/

/-- What `client.Get(url)` followed by `io.ReadAll(resp.Body)` comes to: an error of
`Get`, an error of `ReadAll`, or a response read to its end, with its HTTP status
and body.  `Get` reports no error for a response with an error status, and the
slice `ReadAll` returns is never nil, also for a body of length zero.  Redirects
are followed inside `Get`, so one call counts as one outbound GET. -/
inductive FetchResult where
  | getErr (err : String)
  | readErr (status : Nat) (err : String)
  | ok (status : Nat) (body : Bytes)
deriving DecidableEq, Repr

/-- The behaviour of the network while one request is handled. -/
abbrev Net := String → FetchResult

/-! ## JSON encoding of the catalog

What `json.NewEncoder(w).Encode(fonts)` writes for the declared types: fields in
declaration order under the names of their `json` tags; the tag of `Category` is
malformed (line 37), so that field keeps its Go name; a nil slice is `null`; the
encoder ends the value with a newline. -/

def jsonStringArray {Font : Type} (lib : Lib Font) : Option (List String) → String
  | none => "null"
  | some l => "[" ++ ",".intercalate (l.map lib.jsonString) ++ "]"

def jsonGoogleFontFiles {Font : Type} (lib : Lib Font) (f : GoogleFontFiles) : String :=
  "\x7b\"regular\":" ++ lib.jsonString f.Regular
    ++ ",\"italic\":" ++ lib.jsonString f.Italic ++ "\x7d"

def jsonGoogleFont {Font : Type} (lib : Lib Font) (f : GoogleFont) : String :=
  "\x7b\"family\":" ++ lib.jsonString f.Family
    ++ ",\"variants\":" ++ jsonStringArray lib f.Variants
    ++ ",\"subsets\":" ++ jsonStringArray lib f.Subsets
    ++ ",\"version\":" ++ lib.jsonString f.Version
    ++ ",\"lastModified\":" ++ lib.jsonString f.LastModified
    ++ ",\"files\":" ++ jsonGoogleFontFiles lib f.Files
    ++ ",\"Category\":" ++ lib.jsonString f.Category
    ++ ",\"kind\":" ++ lib.jsonString f.Kind
    ++ ",\"menu\":" ++ lib.jsonString f.Menu ++ "\x7d"

/-- The JSON value of the catalog. -/
def jsonGoogleFontsList {Font : Type} (lib : Lib Font) : GoogleFontsList → String
  | none => "null"
  | some l => "[" ++ ",".intercalate (l.map (jsonGoogleFont lib)) ++ "]"

/-- The bytes `json.NewEncoder(w).Encode(fonts)` hands to `w.Write`. -/
def jsonEncode {Font : Type} (lib : Lib Font) (fonts : GoogleFontsList) : Bytes :=
  stringBytes (jsonGoogleFontsList lib fonts ++ "\n")

/-! ## The handler -/

/-- The effects of a handler call, in the order they happen. -/
inductive Event where
  | get (url : String) (res : FetchResult)
  | logAlreadyDownloaded (font : String)
  | parse (ba : ByteSlice)
  | logParseError (ba : ByteSlice)
  | drawString (s : String) (p : Point26_6)
  | pngEncode
  | logEncodeError (err : String)
  | fatal (err : String)
deriving DecidableEq, Repr

/-- How a handler call ends: it returns, or `log.Fatal` ends the process. -/
inductive Outcome where
  | returned
  | exited
deriving DecidableEq, Repr

/-- Everything a handler call leaves behind. -/
structure HandlerResult where
  w : ResponseWriter
  googleFontFiles : GoogleFontFilesMap
  events : List Event
  outcome : Outcome
deriving DecidableEq, Repr

/-- The URLs of the outbound GETs among the effects. -/
def fetches : List Event → List String
  | [] => []
  | Event.get url _ :: rest => url :: fetches rest
  | _ :: rest => fetches rest

/-- The loop of lines 64-72: the first catalog entry whose `Family` is `font`. -/
def findFont : List GoogleFont → String → Option GoogleFont
  | [], _ => none
  | f :: rest, font => if f.Family = font then some f else findFont rest font

/-- The statement `for _, f := range fonts` ranges over nothing when `fonts` is nil. -/
def rangeFonts : GoogleFontsList → List GoogleFont
  | none => []
  | some l => l

/-- Lines 107-140: parse the cached bytes, draw the family name on the canvas,
encode it and write the response. -/
def render {Font : Type} (lib : Lib Font) (w : ResponseWriter)
    (googleFontFiles : GoogleFontFilesMap) (font : String) (events : List Event) :
    HandlerResult :=
  let ba := mapIndex googleFontFiles font
  let parsed := lib.Parse (ba.getD [])
  let f : Option Font := match parsed with
    | Except.ok f => some f
    | Except.error _ => none
  let ev1 := match parsed with
    | Except.ok _ => [Event.parse ba]
    | Except.error _ => [Event.parse ba, Event.logParseError (mapIndex googleFontFiles font)]
  let fg := Black
  let bg := White
  let rgba := NewRGBA (Rect 0 0 200 50)
  let rgba := drawSrc rgba bg
  let c := NewContext Font
  let c := c.SetDPI 72
  let c := c.SetFont f
  let c := c.SetFontSize 24
  let c := c.SetClip rgba.Bounds
  let c := c.SetDst rgba
  let c := c.SetSrc fg
  let rgba := lib.DrawString c font (Pt 10 25)
  let enc := lib.pngEncode rgba
  let fb := enc.1
  let ev2 := match enc.2 with
    | none => [Event.pngEncode]
    | some err => [Event.pngEncode, Event.logEncodeError err]
  let w := w.setHeader "Content-Type" "image/png"
  let w := w.setHeader "Content-Length" (toString fb.length)
  let w := w.Write fb
  ⟨w, googleFontFiles, events ++ ev1 ++ [Event.drawString font (Pt 10 25)] ++ ev2,
    Outcome.returned⟩

/-- The function `handler` (lines 46-141). -/
def handler {Font : Type} (lib : Lib Font) (fonts : GoogleFontsList) (net : Net)
    (googleFontFiles : GoogleFontFilesMap) (w : ResponseWriter) (r : Request) :
    HandlerResult :=
  let font := valuesGet r.query "font"
  if font = "" then
    let w := w.setHeader "Content-Type" "application/json"
    let w := w.Write (jsonEncode lib fonts)
    ⟨w, googleFontFiles, [], Outcome.returned⟩
  else if font = "" then
    ⟨httpError w "Missing font parameter" StatusBadRequest, googleFontFiles, [],
      Outcome.returned⟩
  else
    match findFont (rangeFonts fonts) font with
    | none =>
      ⟨httpError w "Font not found" StatusNotFound, googleFontFiles, [], Outcome.returned⟩
    | some gf =>
      if mapIndex googleFontFiles font = none then
        match net gf.Files.Regular with
        | FetchResult.getErr err =>
          ⟨w, googleFontFiles,
            [Event.get gf.Files.Regular (FetchResult.getErr err), Event.fatal err],
            Outcome.exited⟩
        | FetchResult.readErr status err =>
          ⟨w, googleFontFiles,
            [Event.get gf.Files.Regular (FetchResult.readErr status err), Event.fatal err],
            Outcome.exited⟩
        | FetchResult.ok status ba =>
          render lib w (mapAssign googleFontFiles font (some ba)) font
            [Event.get gf.Files.Regular (FetchResult.ok status ba)]
      else
        render lib w googleFontFiles font [Event.logAlreadyDownloaded font]

/-! ## The process -/

/-- The function `getGoogleFonts` (lines 144-169): the new value of `fonts`, or
the error `log.Fatal` ends the process with. -/
def getGoogleFonts {Font : Type} (lib : Lib Font) (net : Net) (apiKey : String) :
    Except String GoogleFontsList :=
  let url := "https://www.googleapis.com/webfonts/v1/webfonts?key=" ++ apiKey
  match net url with
  | FetchResult.getErr err => Except.error err
  | FetchResult.readErr _ err => Except.error err
  | FetchResult.ok _ body => Except.ok (lib.unmarshalItems body)

/-- The two package-level variables. -/
structure Globals where
  fonts : GoogleFontsList
  googleFontFiles : GoogleFontFilesMap
deriving DecidableEq, Repr

/-- The function `main` up to the registration of the handler (lines 171-184):
`dotenv` is the outcome of `godotenv.Load`, `apiKey` the value of the environment
variable afterwards. -/
def main {Font : Type} (lib : Lib Font) (dotenv : Except String Unit) (apiKey : String)
    (net : Net) : Except String Globals :=
  match dotenv with
  | Except.error _ => Except.error "Error loading .env file"
  | Except.ok _ =>
    match getGoogleFonts lib net apiKey with
    | Except.error err => Except.error err
    | Except.ok fonts => Except.ok ⟨fonts, makeGoogleFontFilesMap⟩

/-- One incoming request together with the behaviour of the network while it is
handled. -/
structure Step where
  r : Request
  net : Net

/-- The server between requests: the cache, whether the process is still running,
and what the handled requests left behind, oldest first. -/
structure ServerState where
  googleFontFiles : GoogleFontFilesMap
  alive : Bool
  trace : List HandlerResult

/-- The server right after `main` made the cache. -/
def initialState : ServerState := ⟨makeGoogleFontFilesMap, true, []⟩

/-- Handle one request, if the process is still running. -/
def serveStep {Font : Type} (lib : Lib Font) (fonts : GoogleFontsList) (s : ServerState)
    (st : Step) : ServerState :=
  if s.alive then
    let res := handler lib fonts st.net s.googleFontFiles newResponseWriter st.r
    ⟨res.googleFontFiles, res.outcome == Outcome.returned, s.trace ++ [res]⟩
  else s

/-- Handle a sequence of requests one after the other. -/
def serve {Font : Type} (lib : Lib Font) (fonts : GoogleFontsList) (s : ServerState)
    (steps : List Step) : ServerState :=
  steps.foldl (serveStep lib fonts) s

/-- The value of the `font` query parameter as the handler reads it (line 48). -/
def fontParam (r : Request) : String := valuesGet r.query "font"

/-! ## Notions used in the statements -/

/-- An error of `client.Get` or of `io.ReadAll`. -/
def FetchResult.isError : FetchResult → Bool
  | FetchResult.getErr _ => true
  | FetchResult.readErr _ _ => true
  | FetchResult.ok _ _ => false

/-- The PNG bytes that lines 107-140 write for a family name when the cache holds
`ba` under it: the body `render` produces on a cache with that single entry. -/
def renderedPng {Font : Type} (lib : Lib Font) (font : String) (ba : ByteSlice) : Bytes :=
  (render lib newResponseWriter [(font, ba)] font []).w.body

/-- The canvas after line 115. -/
def whiteCanvas : RGBA := drawSrc (NewRGBA (Rect 0 0 200 50)) White

/-- The drawing context after line 123, for the font handle `f`. -/
def drawingContext {Font : Type} (f : Option Font) : Context Font :=
  ⟨f, 24, 72, Rect 0 0 200 50, some whiteCanvas, some Black⟩

/-- The response of a render with the parsed font `f`: status 200, Content-Type
`image/png`, Content-Length the decimal length of the body, and a non-empty body
that is what the PNG encoder wrote for the 200 by 50 canvas after `DrawString`. -/
def IsPngResponse {Font : Type} (lib : Lib Font) (font : String) (f : Font)
    (w : ResponseWriter) : Prop :=
  w.status = some 200
    ∧ headerGet w.header "Content-Type" = "image/png"
    ∧ headerGet w.header "Content-Length" = toString w.body.length
    ∧ w.body ≠ []
    ∧ w.body = (lib.pngEncode (lib.DrawString (drawingContext (some f)) font (Pt 10 25))).1

/-- The render path of a request works on the bytes `ba`: they are cached under the
family, or nothing is cached under it and the GET of the entry's regular URL
returns them. -/
def RendersFrom (net : Net) (cache : GoogleFontFilesMap) (gf : GoogleFont) (font : String)
    (ba : Bytes) : Prop :=
  mapIndex cache font = some ba
    ∨ (mapIndex cache font = none ∧ ∃ status, net gf.Files.Regular = FetchResult.ok status ba)

/-- Every key of the cache has a catalog entry of that family, and the value under
it is the body with which a GET of that entry's regular URL, made while an earlier
request was handled, came back (without error of `Get` or `ReadAll`). -/
def CacheFromFetches (fonts : GoogleFontsList) (s : ServerState) : Prop :=
  ∀ k, mapHasKey s.googleFontFiles k = true →
    ∃ gf ∈ rangeFonts fonts, gf.Family = k ∧
      ∃ status body, mapIndex s.googleFontFiles k = some body ∧
        ∃ res ∈ s.trace, Event.get gf.Files.Regular (FetchResult.ok status body) ∈ res.events

/-- The invariant `CacheFromFetches` with the further demand that the response
whose body is stored did not carry an error status (4xx or 5xx). -/
def CacheFromSuccessfulFetches (fonts : GoogleFontsList) (s : ServerState) : Prop :=
  ∀ k, mapHasKey s.googleFontFiles k = true →
    ∃ gf ∈ rangeFonts fonts, gf.Family = k ∧
      ∃ status body, mapIndex s.googleFontFiles k = some body ∧
        ∃ res ∈ s.trace,
          Event.get gf.Files.Regular (FetchResult.ok status body) ∈ res.events ∧ status < 400

/-! ## Sample data

A small instance of the library interface and a one-entry catalog, used to
evaluate the definitions above on concrete requests. -/

/-- An instance of `Lib`: strings are quoted without escaping, a font file is one
that starts with the TrueType version bytes, drawing leaves the canvas as it is,
and the encoder emits the PNG signature followed by the two dimensions. -/
def sampleLib : Lib Bytes where
  jsonString s := "\"" ++ s ++ "\""
  unmarshalItems b := if b = stringBytes "\x7b\"items\":[]\x7d" then some [] else none
  Parse b := if b.take 4 = [0, 1, 0, 0] then Except.ok b else Except.error "bad version"
  DrawString c _ _ := c.dst.getD (NewRGBA c.clip)
  pngEncode m := ([137, 80, 78, 71, 13, 10, 26, 10, m.rect.Dx, m.rect.Dy], none)

def roboto : GoogleFont :=
  ⟨"Roboto", some ["regular"], some ["latin"], "v30", "2022-09-22",
    ⟨"https://fonts.example/Roboto.ttf", ""⟩, "sans-serif", "webfonts#webfont", ""⟩

/-- An entry whose family name is the empty string. -/
def nameless : GoogleFont :=
  ⟨"", none, none, "", "", ⟨"https://fonts.example/nameless.ttf", ""⟩, "", "", ""⟩

/-- The request `GET /fonts?font=<name>`. -/
def requestFor (name : String) : Request := ⟨[("font", [name])]⟩

/-- The request `GET /fonts`. -/
def requestList : Request := ⟨[]⟩

/-- A network on which every GET is answered 200 with the same body. -/
def netServing (body : Bytes) : Net := fun _ => FetchResult.ok 200 body

/-- A network on which every GET is answered 404 with the same body. -/
def netNotFound (body : Bytes) : Net := fun _ => FetchResult.ok 404 body

/-- A network on which every GET fails. -/
def netDown : Net := fun _ => FetchResult.getErr "dial tcp: connection refused"

/-- A request for Roboto while the font host answers every GET with 404. -/
def stepNotFound : Step := ⟨requestFor "Roboto", netNotFound (stringBytes "Not Found")⟩

/-- A request for Roboto while the font host serves a TrueType file. -/
def stepServed : Step := ⟨requestFor "Roboto", netServing [0, 1, 0, 0, 7]⟩

/-! ## Basic facts -/

/-- The cache `main` hands to the handler is the empty map of line 181. -/
theorem main_cache {Font : Type} (lib : Lib Font) (dotenv : Except String Unit)
    (apiKey : String) (net : Net) (g : Globals)
    (h : main lib dotenv apiKey net = Except.ok g) :
    g.googleFontFiles = makeGoogleFontFilesMap := by
  unfold main at h
  cases dotenv with
  | error e => simp at h
  | ok u =>
    cases hg : getGoogleFonts lib net apiKey with
    | error e => simp [hg] at h
    | ok fonts =>
      simp [hg] at h
      rw [← h]

theorem mapIndex_mapAssign_self (m : GoogleFontFilesMap) (k : String) (v : ByteSlice) :
    mapIndex (mapAssign m k v) k = v := by
  induction m with
  | nil => simp [mapAssign, mapIndex]
  | cons p rest ih =>
    obtain ⟨k', v'⟩ := p
    by_cases h : k' = k
    · simp [mapAssign, mapIndex, h]
    · simp [mapAssign, mapIndex, h, ih]

theorem mapIndex_mapAssign_ne (m : GoogleFontFilesMap) (k k' : String) (v : ByteSlice)
    (hne : k' ≠ k) : mapIndex (mapAssign m k v) k' = mapIndex m k' := by
  induction m with
  | nil => simp [mapAssign, mapIndex, Ne.symm hne]
  | cons p rest ih =>
    obtain ⟨k0, v0⟩ := p
    by_cases h : k0 = k
    · subst h
      simp [mapAssign, mapIndex, Ne.symm hne]
    · by_cases h2 : k0 = k'
      · subst h2
        simp [mapAssign, mapIndex, h]
      · simp [mapAssign, mapIndex, h, h2, ih]

theorem mapHasKey_mapAssign (m : GoogleFontFilesMap) (k k' : String) (v : ByteSlice) :
    mapHasKey (mapAssign m k v) k' = true ↔ (k' = k ∨ mapHasKey m k' = true) := by
  induction m with
  | nil =>
    simp [mapAssign, mapHasKey]
    exact eq_comm
  | cons p rest ih =>
    obtain ⟨k0, v0⟩ := p
    by_cases h : k0 = k
    · subst h
      by_cases h2 : k0 = k'
      · simp [mapAssign, mapHasKey, h2]
      · simp [mapAssign, mapHasKey, h2]
        intro h3
        exact absurd h3.symm h2
    · by_cases h2 : k0 = k'
      · subst h2
        simp [mapAssign, mapHasKey, h]
      · simp [mapAssign, mapHasKey, h, h2, ih]

theorem mapAssign_length_le (m : GoogleFontFilesMap) (k : String) (v : ByteSlice) :
    (mapAssign m k v).length ≤ m.length + 1 := by
  induction m with
  | nil => simp [mapAssign]
  | cons p rest ih =>
    obtain ⟨k0, v0⟩ := p
    by_cases h : k0 = k
    · simp [mapAssign, h]
    · simp [mapAssign, h, ih]

theorem mapIndex_none_of_not_hasKey (m : GoogleFontFilesMap) (k : String)
    (h : mapHasKey m k = false) : mapIndex m k = none := by
  induction m with
  | nil => simp [mapIndex]
  | cons p rest ih =>
    obtain ⟨k0, v0⟩ := p
    by_cases h2 : k0 = k
    · simp [mapHasKey, h2] at h
    · simp [mapHasKey, h2] at h
      simp [mapIndex, h2, ih h]

theorem findFont_some {l : List GoogleFont} {font : String} {gf : GoogleFont}
    (h : findFont l font = some gf) : gf ∈ l ∧ gf.Family = font := by
  induction l with
  | nil => simp [findFont] at h
  | cons f rest ih =>
    by_cases hf : f.Family = font
    · simp [findFont, hf] at h
      subst h
      exact ⟨List.mem_cons_self _ _, hf⟩
    · simp [findFont, hf] at h
      exact ⟨List.mem_cons_of_mem _ (ih h).1, (ih h).2⟩

theorem findFont_none {l : List GoogleFont} {font : String}
    (h : ∀ f ∈ l, f.Family ≠ font) : findFont l font = none := by
  induction l with
  | nil => simp [findFont]
  | cons f rest ih =>
    have hf : f.Family ≠ font := h f (List.mem_cons_self _ _)
    simp [findFont, hf]
    exact ih (fun g hg => h g (List.mem_cons_of_mem _ hg))

theorem valuesGet_absent (v : Values) (key : String) (h : v.lookup key = none) :
    valuesGet v key = "" := by
  simp [valuesGet, h]

/-- The list branch (lines 50-55). -/
theorem handler_list {Font : Type} (lib : Lib Font) (fonts : GoogleFontsList) (net : Net)
    (cache : GoogleFontFilesMap) (w : ResponseWriter) (r : Request)
    (h : fontParam r = "") :
    handler lib fonts net cache w r =
      ⟨(w.setHeader "Content-Type" "application/json").Write (jsonEncode lib fonts),
        cache, [], Outcome.returned⟩ := by
  unfold fontParam at h
  simp [handler, h]

/-- The not-found branch (lines 74-78). -/
theorem handler_notFound {Font : Type} (lib : Lib Font) (fonts : GoogleFontsList) (net : Net)
    (cache : GoogleFontFilesMap) (w : ResponseWriter) (r : Request)
    (h : fontParam r ≠ "") (hnone : findFont (rangeFonts fonts) (fontParam r) = none) :
    handler lib fonts net cache w r =
      ⟨httpError w "Font not found" StatusNotFound, cache, [], Outcome.returned⟩ := by
  unfold fontParam at h hnone
  simp [handler, h, hnone]

/-- The download branch when the fetch succeeds (lines 81-101, then 107-140). -/
theorem handler_fetched {Font : Type} (lib : Lib Font) (fonts : GoogleFontsList) (net : Net)
    (cache : GoogleFontFilesMap) (w : ResponseWriter) (r : Request) (gf : GoogleFont)
    (status : Nat) (ba : Bytes)
    (h : fontParam r ≠ "") (hsome : findFont (rangeFonts fonts) (fontParam r) = some gf)
    (hmiss : mapIndex cache (fontParam r) = none)
    (hnet : net gf.Files.Regular = FetchResult.ok status ba) :
    handler lib fonts net cache w r =
      render lib w (mapAssign cache (fontParam r) (some ba)) (fontParam r)
        [Event.get gf.Files.Regular (FetchResult.ok status ba)] := by
  unfold fontParam at h hsome hmiss
  unfold fontParam
  simp [handler, h, hsome, hmiss, hnet]

/-- The cache-hit branch (lines 103-105, then 107-140). -/
theorem handler_cached {Font : Type} (lib : Lib Font) (fonts : GoogleFontsList) (net : Net)
    (cache : GoogleFontFilesMap) (w : ResponseWriter) (r : Request) (gf : GoogleFont)
    (h : fontParam r ≠ "") (hsome : findFont (rangeFonts fonts) (fontParam r) = some gf)
    (hhit : mapIndex cache (fontParam r) ≠ none) :
    handler lib fonts net cache w r =
      render lib w cache (fontParam r) [Event.logAlreadyDownloaded (fontParam r)] := by
  unfold fontParam at h hsome hhit
  unfold fontParam
  simp [handler, h, hsome, hhit]

/-- The two fatal branches (lines 91-93 and 96-98). -/
theorem handler_fatal {Font : Type} (lib : Lib Font) (fonts : GoogleFontsList) (net : Net)
    (cache : GoogleFontFilesMap) (w : ResponseWriter) (r : Request) (gf : GoogleFont)
    (h : fontParam r ≠ "") (hsome : findFont (rangeFonts fonts) (fontParam r) = some gf)
    (hmiss : mapIndex cache (fontParam r) = none)
    (hnet : ∀ status ba, net gf.Files.Regular ≠ FetchResult.ok status ba) :
    ∃ err, handler lib fonts net cache w r =
      ⟨w, cache, [Event.get gf.Files.Regular (net gf.Files.Regular), Event.fatal err],
        Outcome.exited⟩ := by
  unfold fontParam at h hsome hmiss
  cases hres : net gf.Files.Regular with
  | getErr err => exact ⟨err, by simp [handler, h, hsome, hmiss, hres]⟩
  | readErr status err => exact ⟨err, by simp [handler, h, hsome, hmiss, hres]⟩
  | ok status ba => exact absurd hres (hnet status ba)

theorem fetches_append (a b : List Event) : fetches (a ++ b) = fetches a ++ fetches b := by
  induction a with
  | nil => simp [fetches]
  | cons e rest ih => cases e <;> simp [fetches, ih]

theorem render_cache {Font : Type} (lib : Lib Font) (w : ResponseWriter)
    (cache : GoogleFontFilesMap) (font : String) (ev : List Event) :
    (render lib w cache font ev).googleFontFiles = cache := rfl

theorem render_outcome {Font : Type} (lib : Lib Font) (w : ResponseWriter)
    (cache : GoogleFontFilesMap) (font : String) (ev : List Event) :
    (render lib w cache font ev).outcome = Outcome.returned := rfl

theorem render_fetches {Font : Type} (lib : Lib Font) (w : ResponseWriter)
    (cache : GoogleFontFilesMap) (font : String) (ev : List Event) :
    fetches (render lib w cache font ev).events = fetches ev := by
  simp only [render, fetches_append]
  cases lib.Parse ((mapIndex cache font).getD []) <;>
    cases (lib.pngEncode _).2 <;> simp [fetches]

theorem render_parse_mem {Font : Type} (lib : Lib Font) (w : ResponseWriter)
    (cache : GoogleFontFilesMap) (font : String) (ev : List Event) :
    Event.parse (mapIndex cache font) ∈ (render lib w cache font ev).events := by
  simp only [render]
  cases lib.Parse ((mapIndex cache font).getD []) <;> simp

theorem render_events_mem {Font : Type} (lib : Lib Font) (w : ResponseWriter)
    (cache : GoogleFontFilesMap) (font : String) (ev : List Event) (e : Event) (he : e ∈ ev) :
    e ∈ (render lib w cache font ev).events := by
  simp only [render]
  simp [he]

/-- The render path issues no GET of its own. -/
theorem render_get_mem {Font : Type} (lib : Lib Font) (w : ResponseWriter)
    (cache : GoogleFontFilesMap) (font : String) (ev : List Event) (url : String)
    (res : FetchResult) (h : Event.get url res ∈ (render lib w cache font ev).events) :
    Event.get url res ∈ ev := by
  simp only [render, List.mem_append] at h
  rcases h with ((h | h) | h) | h
  · exact h
  · split at h <;> simp at h
  · simp at h
  · split at h <;> simp at h

/-- On a fresh response writer the render path writes status 200, the two headers
and the PNG bytes, which depend on the family name and the bytes cached under it
only. -/
theorem render_response {Font : Type} (lib : Lib Font) (cache : GoogleFontFilesMap)
    (font : String) (ev : List Event) :
    (render lib newResponseWriter cache font ev).w =
      ⟨[("Content-Type", "image/png"),
          ("Content-Length", toString (renderedPng lib font (mapIndex cache font)).length)],
        some 200, renderedPng lib font (mapIndex cache font)⟩ := by
  simp [render, renderedPng, newResponseWriter, ResponseWriter.setHeader,
    ResponseWriter.Write, ResponseWriter.WriteHeader, headerSet, headerDel, mapIndex]

theorem renderedPng_eq {Font : Type} (lib : Lib Font) (font : String) (ba : ByteSlice) :
    renderedPng lib font ba =
      (lib.pngEncode (lib.DrawString (drawingContext (lib.Parse (ba.getD [])).toOption)
        font ⟨640, 1600⟩)).1 := by
  have hidx : mapIndex [(font, ba)] font = ba := by simp [mapIndex]
  simp only [renderedPng, render, hidx]
  cases h : lib.Parse (ba.getD []) <;>
    simp [newResponseWriter, ResponseWriter.setHeader, ResponseWriter.Write,
      ResponseWriter.WriteHeader, drawingContext, whiteCanvas, NewContext, Context.SetDPI,
      Context.SetFont, Context.SetFontSize, Context.SetClip, Context.SetDst, Context.SetSrc,
      RGBA.Bounds, drawSrc, NewRGBA, Except.toOption, Pt]

theorem whiteCanvas_rect : whiteCanvas.rect = Rect 0 0 200 50 := rfl

theorem flatten_replicate_length (n a b c d : Nat) :
    (List.replicate n [a, b, c, d]).flatten.length = 4 * n := by
  induction n with
  | zero => rfl
  | succ n ih =>
    rw [List.replicate_succ, List.flatten_cons, List.length_append, ih]
    simp only [List.length_cons, List.length_nil]
    omega

theorem flatten_replicate_mem (n a b c d x : Nat)
    (hx : x ∈ (List.replicate n [a, b, c, d]).flatten) : x = a ∨ x = b ∨ x = c ∨ x = d := by
  induction n with
  | zero => simp at hx
  | succ n ih =>
    rw [List.replicate_succ, List.flatten_cons, List.mem_append] at hx
    rcases hx with h | h
    · simpa using h
    · exact ih h

theorem whiteCanvas_length : whiteCanvas.pix.length = 4 * (200 * 50) := by
  have h : whiteCanvas.pix = (List.replicate (200 * 50) [255, 255, 255, 255]).flatten := rfl
  rw [h, flatten_replicate_length]

theorem whiteCanvas_white : ∀ b ∈ whiteCanvas.pix, b = 255 := by
  intro b hb
  have h : whiteCanvas.pix = (List.replicate (200 * 50) [255, 255, 255, 255]).flatten := rfl
  rw [h] at hb
  rcases flatten_replicate_mem _ _ _ _ _ _ hb with h | h | h | h <;> exact h

/-! ## The list operation -/

/-- C1: a request whose `font` parameter is absent gets the list response, for
every catalog and every cache: Content-Type `application/json`, status 200, as body
what the JSON encoder writes for the catalog (its entries in catalog order between
brackets, separated by commas, then the encoder's newline), no outbound GET, the
cache as it was, and the same body under any other cache and network. -/
theorem list_response_when_font_absent {Font : Type} (lib : Lib Font)
    (fonts : GoogleFontsList) (net net' : Net) (cache cache' : GoogleFontFilesMap)
    (r : Request) (habsent : r.query.lookup "font" = none) :
    (handler lib fonts net cache newResponseWriter r).w.header
        = [("Content-Type", "application/json")]
      ∧ (handler lib fonts net cache newResponseWriter r).w.status = some 200
      ∧ (handler lib fonts net cache newResponseWriter r).w.body
          = stringBytes (jsonGoogleFontsList lib fonts ++ "\n")
      ∧ (∀ l, fonts = some l →
          (handler lib fonts net cache newResponseWriter r).w.body
            = stringBytes ("[" ++ ",".intercalate (l.map (jsonGoogleFont lib)) ++ "]" ++ "\n"))
      ∧ fetches (handler lib fonts net cache newResponseWriter r).events = []
      ∧ (handler lib fonts net cache newResponseWriter r).googleFontFiles = cache
      ∧ (handler lib fonts net cache newResponseWriter r).outcome = Outcome.returned
      ∧ (handler lib fonts net' cache' newResponseWriter r).w.body
          = (handler lib fonts net cache newResponseWriter r).w.body := by
  have h : fontParam r = "" := valuesGet_absent _ _ habsent
  rw [handler_list lib fonts net cache _ r h, handler_list lib fonts net' cache' _ r h]
  refine ⟨by simp [newResponseWriter, ResponseWriter.setHeader, ResponseWriter.Write,
      ResponseWriter.WriteHeader, headerSet, headerDel],
    by simp [newResponseWriter, ResponseWriter.setHeader, ResponseWriter.Write,
      ResponseWriter.WriteHeader],
    by simp [newResponseWriter, ResponseWriter.setHeader, ResponseWriter.Write,
      ResponseWriter.WriteHeader, jsonEncode], ?_, by simp [fetches], rfl, rfl, rfl⟩
  intro l hl
  subst hl
  simp [newResponseWriter, ResponseWriter.setHeader, ResponseWriter.Write,
    ResponseWriter.WriteHeader, jsonEncode, jsonGoogleFontsList]

/-- C1 at `GET /fonts` on the one-entry catalog: the body is the array with the
Roboto entry, with an empty cache as with a filled one. -/
theorem list_response_when_font_absent_witness :
    requestList.query.lookup "font" = none
      ∧ (handler sampleLib (some [roboto]) netDown [] newResponseWriter requestList).w.status
          = some 200
      ∧ (handler sampleLib (some [roboto]) netDown [] newResponseWriter requestList).w.body
          = stringBytes ("[\x7b\"family\":\"Roboto\",\"variants\":[\"regular\"],"
              ++ "\"subsets\":[\"latin\"],\"version\":\"v30\","
              ++ "\"lastModified\":\"2022-09-22\","
              ++ "\"files\":\x7b\"regular\":\"https://fonts.example/Roboto.ttf\","
              ++ "\"italic\":\"\"\x7d,\"Category\":\"sans-serif\","
              ++ "\"kind\":\"webfonts#webfont\",\"menu\":\"\"\x7d]\n")
      ∧ (handler sampleLib (some [roboto]) (netServing [1]) [("Roboto", some [0, 1, 0, 0])]
            newResponseWriter requestList).w.body
          = (handler sampleLib (some [roboto]) netDown [] newResponseWriter requestList).w.body :=
  ⟨by decide,
    (list_response_when_font_absent sampleLib (some [roboto]) netDown (netServing [1]) []
      [("Roboto", some [0, 1, 0, 0])] requestList (by decide)).2.1,
    by decide,
    (list_response_when_font_absent sampleLib (some [roboto]) netDown (netServing [1]) []
      [("Roboto", some [0, 1, 0, 0])] requestList (by decide)).2.2.2.2.2.2.2⟩

/-! ## The not-found response -/

/-- C2: a request whose `font` value is non-empty and is the `Family` of no catalog
entry gets status 404 and the body `Font not found` with a newline, whatever the
catalog holds; no outbound GET is issued and the cache is as it was. -/
theorem not_found_response {Font : Type} (lib : Lib Font) (fonts : GoogleFontsList)
    (net : Net) (cache : GoogleFontFilesMap) (r : Request)
    (hne : fontParam r ≠ "")
    (hno : ∀ f ∈ rangeFonts fonts, f.Family ≠ fontParam r) :
    (handler lib fonts net cache newResponseWriter r).w.status = some 404
      ∧ (handler lib fonts net cache newResponseWriter r).w.body
          = stringBytes "Font not found\n"
      ∧ (handler lib fonts net cache newResponseWriter r).w.header
          = [("Content-Type", "text/plain; charset=utf-8"),
              ("X-Content-Type-Options", "nosniff")]
      ∧ fetches (handler lib fonts net cache newResponseWriter r).events = []
      ∧ (handler lib fonts net cache newResponseWriter r).googleFontFiles = cache
      ∧ (handler lib fonts net cache newResponseWriter r).outcome = Outcome.returned := by
  rw [handler_notFound lib fonts net cache _ r hne (findFont_none hno)]
  refine ⟨by simp [httpError, newResponseWriter, ResponseWriter.setHeader,
      ResponseWriter.Write, ResponseWriter.WriteHeader, StatusNotFound],
    by simp [httpError, newResponseWriter, ResponseWriter.setHeader,
      ResponseWriter.Write, ResponseWriter.WriteHeader],
    by simp [httpError, newResponseWriter, ResponseWriter.setHeader,
      ResponseWriter.Write, ResponseWriter.WriteHeader, headerSet, headerDel],
    by simp [fetches], rfl, rfl⟩

/-- C2 at `GET /fonts?font=Unknown` on the one-entry catalog with Roboto cached. -/
theorem not_found_response_witness :
    fontParam (requestFor "Unknown") ≠ ""
      ∧ (handler sampleLib (some [roboto]) (netServing [1]) [("Roboto", some [0, 1, 0, 0])]
            newResponseWriter (requestFor "Unknown")).w.status = some 404
      ∧ (handler sampleLib (some [roboto]) (netServing [1]) [("Roboto", some [0, 1, 0, 0])]
            newResponseWriter (requestFor "Unknown")).googleFontFiles
          = [("Roboto", some [0, 1, 0, 0])] :=
  ⟨by decide,
    (not_found_response sampleLib (some [roboto]) (netServing [1])
      [("Roboto", some [0, 1, 0, 0])] (requestFor "Unknown") (by decide) (by decide)).1,
    (not_found_response sampleLib (some [roboto]) (netServing [1])
      [("Roboto", some [0, 1, 0, 0])] (requestFor "Unknown") (by decide)
      (by decide)).2.2.2.2.1⟩

/-! ## The empty parameter and the second check -/

/-- On a fresh response writer the handler ends in one of four ways: the list
response, the not-found response, `log.Fatal` with nothing written, or the PNG
response. -/
theorem handler_status {Font : Type} (lib : Lib Font) (fonts : GoogleFontsList) (net : Net)
    (cache : GoogleFontFilesMap) (r : Request) :
    (handler lib fonts net cache newResponseWriter r).w.status = some 200
      ∨ (handler lib fonts net cache newResponseWriter r).w.status = some 404
      ∨ ((handler lib fonts net cache newResponseWriter r).w = newResponseWriter
          ∧ (handler lib fonts net cache newResponseWriter r).outcome = Outcome.exited) := by
  by_cases h : fontParam r = ""
  · left
    rw [handler_list lib fonts net cache _ r h]
    simp [newResponseWriter, ResponseWriter.setHeader, ResponseWriter.Write,
      ResponseWriter.WriteHeader]
  · cases hf : findFont (rangeFonts fonts) (fontParam r) with
    | none =>
      right; left
      rw [handler_notFound lib fonts net cache _ r h hf]
      simp [httpError, newResponseWriter, ResponseWriter.setHeader,
        ResponseWriter.Write, ResponseWriter.WriteHeader, StatusNotFound]
    | some gf =>
      by_cases hm : mapIndex cache (fontParam r) = none
      · cases hn : net gf.Files.Regular with
        | ok status ba =>
          left
          rw [handler_fetched lib fonts net cache _ r gf status ba h hf hm hn, render_response]
        | getErr err =>
          right; right
          obtain ⟨e, he⟩ := handler_fatal lib fonts net cache newResponseWriter r gf h hf hm
            (by intro s b; rw [hn]; exact fun hc => FetchResult.noConfusion hc)
          rw [he]
          exact ⟨rfl, rfl⟩
        | readErr status err =>
          right; right
          obtain ⟨e, he⟩ := handler_fatal lib fonts net cache newResponseWriter r gf h hf hm
            (by intro s b; rw [hn]; exact fun hc => FetchResult.noConfusion hc)
          rw [he]
          exact ⟨rfl, rfl⟩
      · left
        rw [handler_cached lib fonts net cache _ r gf h hf hm, render_response]

/-- C6: a request whose `font` parameter is present but empty is handled exactly
as a request without the parameter (same response, cache, effects and outcome), and
that is the list response: Content-Type `application/json`, status 200, as body
what the JSON encoder writes for the catalog, no outbound GET, the cache as it was.
No request, catalog, network and cache makes the handler answer 400 `Missing font
parameter`: the second check of the empty value (lines 58-61) is never taken. -/
theorem empty_font_is_list_and_never_400 {Font : Type} (lib : Lib Font)
    (fonts : GoogleFontsList) (net : Net) (cache : GoogleFontFilesMap) (r r0 : Request)
    (vs : List String)
    (hempty : r.query.lookup "font" = some ("" :: vs))
    (habsent : r0.query.lookup "font" = none) :
    handler lib fonts net cache newResponseWriter r
        = handler lib fonts net cache newResponseWriter r0
      ∧ (handler lib fonts net cache newResponseWriter r).w.header
          = [("Content-Type", "application/json")]
      ∧ (handler lib fonts net cache newResponseWriter r).w.status = some 200
      ∧ (handler lib fonts net cache newResponseWriter r).w.body
          = stringBytes (jsonGoogleFontsList lib fonts ++ "\n")
      ∧ (∀ l, fonts = some l →
          (handler lib fonts net cache newResponseWriter r).w.body
            = stringBytes ("[" ++ ",".intercalate (l.map (jsonGoogleFont lib)) ++ "]" ++ "\n"))
      ∧ fetches (handler lib fonts net cache newResponseWriter r).events = []
      ∧ (handler lib fonts net cache newResponseWriter r).googleFontFiles = cache
      ∧ (handler lib fonts net cache newResponseWriter r).outcome = Outcome.returned
      ∧ ∀ (fonts' : GoogleFontsList) (net' : Net) (cache' : GoogleFontFilesMap) (r' : Request),
          (handler lib fonts' net' cache' newResponseWriter r').w.status
              ≠ some StatusBadRequest
            ∧ (handler lib fonts' net' cache' newResponseWriter r').w
              ≠ httpError newResponseWriter "Missing font parameter" StatusBadRequest := by
  have h : fontParam r = "" := by simp [fontParam, valuesGet, hempty]
  have h0 : fontParam r0 = "" := valuesGet_absent _ _ habsent
  have hnever : ∀ (fonts' : GoogleFontsList) (net' : Net) (cache' : GoogleFontFilesMap)
      (r' : Request), (handler lib fonts' net' cache' newResponseWriter r').w.status
        ≠ some StatusBadRequest := by
    intro fonts' net' cache' r'
    rcases handler_status lib fonts' net' cache' r' with h | h | ⟨h, _⟩
    · rw [h]; simp [StatusBadRequest]
    · rw [h]; simp [StatusBadRequest]
    · rw [h]; simp [newResponseWriter]
  refine ⟨?_, ?_, ?_, ?_, ?_, ?_, ?_, ?_, ?_⟩
  · rw [handler_list lib fonts net cache _ r h, handler_list lib fonts net cache _ r0 h0]
  · rw [handler_list lib fonts net cache _ r h]
    simp [newResponseWriter, ResponseWriter.setHeader, ResponseWriter.Write,
      ResponseWriter.WriteHeader, headerSet, headerDel]
  · rw [handler_list lib fonts net cache _ r h]
    simp [newResponseWriter, ResponseWriter.setHeader, ResponseWriter.Write,
      ResponseWriter.WriteHeader]
  · rw [handler_list lib fonts net cache _ r h]
    simp [newResponseWriter, ResponseWriter.setHeader, ResponseWriter.Write,
      ResponseWriter.WriteHeader, jsonEncode]
  · intro l hl
    subst hl
    rw [handler_list lib (some l) net cache _ r h]
    simp [newResponseWriter, ResponseWriter.setHeader, ResponseWriter.Write,
      ResponseWriter.WriteHeader, jsonEncode, jsonGoogleFontsList]
  · rw [handler_list lib fonts net cache _ r h]
    simp [fetches]
  · rw [handler_list lib fonts net cache _ r h]
  · rw [handler_list lib fonts net cache _ r h]
  · intro fonts' net' cache' r'
    refine ⟨hnever fonts' net' cache' r', ?_⟩
    intro hw
    apply hnever fonts' net' cache' r'
    rw [hw]
    simp [httpError, newResponseWriter, ResponseWriter.setHeader, ResponseWriter.Write,
      ResponseWriter.WriteHeader]

/-- C6 at `GET /fonts?font=` against `GET /fonts` on the one-entry catalog: the
same result, status 200 and the array with the Roboto entry as body; and at a
request for an unknown family, which is answered 404 and not 400. -/
theorem empty_font_is_list_and_never_400_witness :
    (requestFor "").query.lookup "font" = some ["" ]
      ∧ handler sampleLib (some [roboto]) netDown [] newResponseWriter (requestFor "")
          = handler sampleLib (some [roboto]) netDown [] newResponseWriter requestList
      ∧ (handler sampleLib (some [roboto]) netDown [] newResponseWriter
            (requestFor "")).w.status = some 200
      ∧ (handler sampleLib (some [roboto]) netDown [] newResponseWriter
            (requestFor "")).w.header = [("Content-Type", "application/json")]
      ∧ (handler sampleLib (some [roboto]) netDown [] newResponseWriter (requestFor "")).w.body
          = stringBytes ("[\x7b\"family\":\"Roboto\",\"variants\":[\"regular\"],"
              ++ "\"subsets\":[\"latin\"],\"version\":\"v30\","
              ++ "\"lastModified\":\"2022-09-22\","
              ++ "\"files\":\x7b\"regular\":\"https://fonts.example/Roboto.ttf\","
              ++ "\"italic\":\"\"\x7d,\"Category\":\"sans-serif\","
              ++ "\"kind\":\"webfonts#webfont\",\"menu\":\"\"\x7d]\n")
      ∧ (handler sampleLib (some [roboto]) netDown [] newResponseWriter
            (requestFor "Unknown")).w.status ≠ some StatusBadRequest :=
  ⟨by decide,
    (empty_font_is_list_and_never_400 sampleLib (some [roboto]) netDown [] (requestFor "")
      requestList [] (by decide) (by decide)).1,
    (empty_font_is_list_and_never_400 sampleLib (some [roboto]) netDown [] (requestFor "")
      requestList [] (by decide) (by decide)).2.2.1,
    (empty_font_is_list_and_never_400 sampleLib (some [roboto]) netDown [] (requestFor "")
      requestList [] (by decide) (by decide)).2.1,
    by decide,
    ((empty_font_is_list_and_never_400 sampleLib (some [roboto]) netDown [] (requestFor "")
      requestList [] (by decide) (by decide)).2.2.2.2.2.2.2.2 (some [roboto]) netDown []
      (requestFor "Unknown")).1⟩

/-! ## The empty catalog -/

/-- C8 as stated fails when `fonts` is nil: after `getGoogleFonts` met a response
without `items`, the list request is answered with `null` and not with `[]`. -/
theorem nil_catalog_is_encoded_as_null :
    getGoogleFonts sampleLib (netServing (stringBytes "\x7b\x7d")) "key" = Except.ok none
      ∧ rangeFonts (none : GoogleFontsList) = []
      ∧ (handler sampleLib none netDown [] newResponseWriter requestList).w.body
          = stringBytes "null\n"
      ∧ (handler sampleLib none netDown [] newResponseWriter requestList).w.body
          ≠ stringBytes "[]\n" :=
  ⟨by rfl, by rfl, by decide, by decide⟩

/-- C8, amended: the list request on a catalog without entries has no error
condition (status 200, the handler returns); its body is `[]` and a newline when
`fonts` is an empty non-nil slice and `null` and a newline when `fonts` is nil; and
`getGoogleFonts` sets `fonts` to the `Items` the API response unmarshalled to, nil
included. -/
theorem empty_catalog_list_response {Font : Type} (lib : Lib Font) (fonts : GoogleFontsList)
    (net : Net) (cache : GoogleFontFilesMap) (r : Request)
    (habsent : r.query.lookup "font" = none) (hempty : rangeFonts fonts = []) :
    (handler lib fonts net cache newResponseWriter r).w.status = some 200
      ∧ (handler lib fonts net cache newResponseWriter r).outcome = Outcome.returned
      ∧ (fonts = some [] →
          (handler lib fonts net cache newResponseWriter r).w.body = stringBytes "[]\n")
      ∧ (fonts = none →
          (handler lib fonts net cache newResponseWriter r).w.body = stringBytes "null\n")
      ∧ (fonts = some [] ∨ fonts = none)
      ∧ ∀ (apiKey : String) (status : Nat) (body : Bytes),
          net ("https://www.googleapis.com/webfonts/v1/webfonts?key=" ++ apiKey)
              = FetchResult.ok status body →
            getGoogleFonts lib net apiKey = Except.ok (lib.unmarshalItems body) := by
  have h : fontParam r = "" := valuesGet_absent _ _ habsent
  rw [handler_list lib fonts net cache _ r h]
  refine ⟨by simp [newResponseWriter, ResponseWriter.setHeader, ResponseWriter.Write,
      ResponseWriter.WriteHeader], rfl, ?_, ?_, ?_, ?_⟩
  · intro hf
    subst hf
    simp only [newResponseWriter, ResponseWriter.setHeader, ResponseWriter.Write,
      ResponseWriter.WriteHeader, jsonEncode, jsonGoogleFontsList, List.nil_append,
      List.map_nil]
    decide
  · intro hf
    subst hf
    simp only [newResponseWriter, ResponseWriter.setHeader, ResponseWriter.Write,
      ResponseWriter.WriteHeader, jsonEncode, jsonGoogleFontsList, List.nil_append]
    decide
  · cases fonts with
    | none => right; rfl
    | some l =>
      left
      simp only [rangeFonts] at hempty
      rw [hempty]
  · intro apiKey status body hnet
    simp [getGoogleFonts, hnet]

/-- C8, amended, at `GET /fonts` on the empty non-nil catalog. -/
theorem empty_catalog_list_response_witness :
    requestList.query.lookup "font" = none
      ∧ (handler sampleLib (some []) netDown [] newResponseWriter requestList).w.body
          = stringBytes "[]\n"
      ∧ (handler sampleLib (some []) netDown [] newResponseWriter requestList).w.status
          = some 200 :=
  ⟨by decide,
    (empty_catalog_list_response sampleLib (some []) netDown [] requestList (by decide)
      (by decide)).2.2.1 rfl,
    (empty_catalog_list_response sampleLib (some []) netDown [] requestList (by decide)
      (by decide)).1⟩

/-! ## The cache across requests -/

/-- What a handler call does to the cache: nothing, or one assignment of freshly
fetched bytes under the requested family, which the catalog lists and under which
the cache held nil. -/
theorem handler_cache_cases {Font : Type} (lib : Lib Font) (fonts : GoogleFontsList)
    (net : Net) (cache : GoogleFontFilesMap) (w : ResponseWriter) (r : Request) :
    (handler lib fonts net cache w r).googleFontFiles = cache
      ∨ ∃ gf status ba, fontParam r ≠ ""
          ∧ findFont (rangeFonts fonts) (fontParam r) = some gf
          ∧ mapIndex cache (fontParam r) = none
          ∧ net gf.Files.Regular = FetchResult.ok status ba
          ∧ handler lib fonts net cache w r
              = render lib w (mapAssign cache (fontParam r) (some ba)) (fontParam r)
                  [Event.get gf.Files.Regular (FetchResult.ok status ba)] := by
  by_cases h : fontParam r = ""
  · left
    rw [handler_list lib fonts net cache _ r h]
  · cases hf : findFont (rangeFonts fonts) (fontParam r) with
    | none =>
      left
      rw [handler_notFound lib fonts net cache _ r h hf]
    | some gf =>
      by_cases hm : mapIndex cache (fontParam r) = none
      · cases hn : net gf.Files.Regular with
        | ok status ba =>
          right
          exact ⟨gf, status, ba, h, rfl, hm, hn,
            handler_fetched lib fonts net cache w r gf status ba h hf hm hn⟩
        | getErr err =>
          left
          obtain ⟨e, he⟩ := handler_fatal lib fonts net cache w r gf h hf hm
            (by intro s b; rw [hn]; exact fun hc => FetchResult.noConfusion hc)
          rw [he]
        | readErr status err =>
          left
          obtain ⟨e, he⟩ := handler_fatal lib fonts net cache w r gf h hf hm
            (by intro s b; rw [hn]; exact fun hc => FetchResult.noConfusion hc)
          rw [he]
      · left
        rw [handler_cached lib fonts net cache _ r gf h hf hm, render_cache]

/-- Bytes cached under a key stay cached under it through a handler call. -/
theorem handler_keeps_bytes {Font : Type} (lib : Lib Font) (fonts : GoogleFontsList)
    (net : Net) (cache : GoogleFontFilesMap) (w : ResponseWriter) (r : Request)
    (k : String) (v : Bytes) (hk : mapIndex cache k = some v) :
    mapIndex (handler lib fonts net cache w r).googleFontFiles k = some v := by
  rcases handler_cache_cases lib fonts net cache w r with h | ⟨gf, st, ba, _, _, hm, _, he⟩
  · rw [h]; exact hk
  · rw [he, render_cache]
    have hne : k ≠ fontParam r := by
      intro hc
      rw [hc, hm] at hk
      exact Option.noConfusion hk
    rw [mapIndex_mapAssign_ne _ _ _ _ hne]
    exact hk

theorem serve_nil {Font : Type} (lib : Lib Font) (fonts : GoogleFontsList) (s : ServerState) :
    serve lib fonts s [] = s := rfl

theorem serve_cons {Font : Type} (lib : Lib Font) (fonts : GoogleFontsList) (s : ServerState)
    (st : Step) (steps : List Step) :
    serve lib fonts s (st :: steps) = serve lib fonts (serveStep lib fonts s st) steps := rfl

/-- Bytes cached under a key stay cached under it through any sequence of
requests. -/
theorem serve_keeps_bytes {Font : Type} (lib : Lib Font) (fonts : GoogleFontsList)
    (steps : List Step) (s : ServerState) (k : String) (v : Bytes)
    (hk : mapIndex s.googleFontFiles k = some v) :
    mapIndex (serve lib fonts s steps).googleFontFiles k = some v := by
  induction steps generalizing s with
  | nil => exact hk
  | cons st rest ih =>
    rw [serve_cons]
    apply ih
    unfold serveStep
    by_cases ha : s.alive = true
    · simp only [ha, if_true]
      exact handler_keeps_bytes lib fonts st.net s.googleFontFiles _ st.r k v hk
    · simp only [ha]
      exact hk

theorem cacheFromFetches_initial (fonts : GoogleFontsList) :
    CacheFromFetches fonts initialState := by
  intro k hk
  simp [initialState, makeGoogleFontFilesMap, mapHasKey] at hk

theorem cacheFromFetches_step {Font : Type} (lib : Lib Font) (fonts : GoogleFontsList)
    (s : ServerState) (st : Step) (hs : CacheFromFetches fonts s) :
    CacheFromFetches fonts (serveStep lib fonts s st) := by
  unfold serveStep
  by_cases ha : s.alive = true
  · simp only [ha, if_true]
    intro k hk
    simp only at hk
    rcases handler_cache_cases lib fonts st.net s.googleFontFiles newResponseWriter st.r with
      h | ⟨gf, status, ba, _, hf, hm, _, he⟩
    · rw [h] at hk
      obtain ⟨gf, hgf, hfam, status, body, hidx, res, hres, hev⟩ := hs k hk
      refine ⟨gf, hgf, hfam, status, body, ?_, res, ?_, hev⟩
      · simp only [h]; exact hidx
      · simp only [List.mem_append]; exact Or.inl hres
    · by_cases hkf : k = fontParam st.r
      · subst hkf
        refine ⟨gf, (findFont_some hf).1, (findFont_some hf).2, status, ba, ?_,
          handler lib fonts st.net s.googleFontFiles newResponseWriter st.r, ?_, ?_⟩
        · simp only [he, render_cache, mapIndex_mapAssign_self]
        · simp
        · rw [he]
          exact render_events_mem _ _ _ _ _ _ (List.mem_singleton.mpr rfl)
      · simp only [he, render_cache] at hk
        rcases (mapHasKey_mapAssign _ _ _ _).mp hk with hc | hc
        · exact absurd hc hkf
        · obtain ⟨gf', hgf, hfam, status', body, hidx, res, hres, hev⟩ := hs k hc
          refine ⟨gf', hgf, hfam, status', body, ?_, res, ?_, hev⟩
          · simp only [he, render_cache]
            rw [mapIndex_mapAssign_ne _ _ _ _ hkf]
            exact hidx
          · simp only [List.mem_append]; exact Or.inl hres
  · simp only [ha]
    exact hs

theorem cacheFromFetches_serve {Font : Type} (lib : Lib Font) (fonts : GoogleFontsList)
    (steps : List Step) (s : ServerState) (hs : CacheFromFetches fonts s) :
    CacheFromFetches fonts (serve lib fonts s steps) := by
  induction steps generalizing s with
  | nil => exact hs
  | cons st rest ih =>
    rw [serve_cons]
    exact ih _ (cacheFromFetches_step lib fonts s st hs)

/-- In a cache reached from the empty one no key holds the nil slice. -/
theorem reachable_keys_hold_bytes {Font : Type} (lib : Lib Font) (fonts : GoogleFontsList)
    (steps : List Step) (k : String)
    (hk : mapHasKey (serve lib fonts initialState steps).googleFontFiles k = true) :
    mapIndex (serve lib fonts initialState steps).googleFontFiles k ≠ none := by
  obtain ⟨_, _, _, _, body, hidx, _⟩ :=
    cacheFromFetches_serve lib fonts steps initialState (cacheFromFetches_initial fonts) k hk
  rw [hidx]
  exact fun hc => Option.noConfusion hc

/-! ## The cache invariant -/

/-- C4 as stated fails: when the GET of the regular URL is answered 404, the handler
stores the body of that error response under the family (and goes on to render),
since neither `client.Get` nor `io.ReadAll` reports an error for it. -/
theorem cache_holds_body_of_error_response :
    (serve sampleLib (some [roboto]) initialState [stepNotFound]).googleFontFiles
        = [("Roboto", some (stringBytes "Not Found"))]
      ∧ (serve sampleLib (some [roboto]) initialState [stepNotFound]).trace.map
          HandlerResult.events
        = [[Event.get "https://fonts.example/Roboto.ttf"
              (FetchResult.ok 404 (stringBytes "Not Found")),
            Event.parse (some (stringBytes "Not Found")),
            Event.logParseError (some (stringBytes "Not Found")),
            Event.drawString "Roboto" ⟨640, 1600⟩, Event.pngEncode]]
      ∧ ¬ CacheFromSuccessfulFetches (some [roboto])
          (serve sampleLib (some [roboto]) initialState [stepNotFound]) := by
  have hevs : (serve sampleLib (some [roboto]) initialState [stepNotFound]).trace.map
          HandlerResult.events
        = [[Event.get "https://fonts.example/Roboto.ttf"
              (FetchResult.ok 404 (stringBytes "Not Found")),
            Event.parse (some (stringBytes "Not Found")),
            Event.logParseError (some (stringBytes "Not Found")),
            Event.drawString "Roboto" ⟨640, 1600⟩, Event.pngEncode]] := by decide
  refine ⟨by decide, hevs, ?_⟩
  intro h
  obtain ⟨gf, _, _, status, body, _, res, hres, hev, hst⟩ := h "Roboto" (by decide)
  have hmem : res.events ∈ (serve sampleLib (some [roboto]) initialState
      [stepNotFound]).trace.map HandlerResult.events := List.mem_map_of_mem _ hres
  rw [hevs, List.mem_singleton] at hmem
  rw [hmem] at hev
  simp at hev
  omega

/-- C4, amended: in every cache reached from the empty cache of `main` by a
sequence of requests, each key is the `Family` of a catalog entry and the value
under it is the body of a response to a GET of that entry's regular URL, made while
an earlier request was handled, for which neither `client.Get` nor `io.ReadAll`
returned an error; the HTTP status of that response can be any. -/
theorem cache_entries_come_from_fetches {Font : Type} (lib : Lib Font)
    (fonts : GoogleFontsList) (steps : List Step) (k : String)
    (hk : mapHasKey (serve lib fonts initialState steps).googleFontFiles k = true) :
    ∃ gf ∈ rangeFonts fonts, gf.Family = k ∧
      ∃ status body,
        mapIndex (serve lib fonts initialState steps).googleFontFiles k = some body ∧
        ∃ res ∈ (serve lib fonts initialState steps).trace,
          Event.get gf.Files.Regular (FetchResult.ok status body) ∈ res.events :=
  cacheFromFetches_serve lib fonts steps initialState (cacheFromFetches_initial fonts) k hk

/-- C4, amended, after a list request and a served request for Roboto. -/
theorem cache_entries_come_from_fetches_witness :
    mapHasKey (serve sampleLib (some [roboto]) initialState
        [⟨requestList, netDown⟩, stepServed]).googleFontFiles "Roboto" = true
      ∧ ∃ gf ∈ rangeFonts (some [roboto]), gf.Family = "Roboto" ∧
        ∃ status body,
          mapIndex (serve sampleLib (some [roboto]) initialState
            [⟨requestList, netDown⟩, stepServed]).googleFontFiles "Roboto" = some body ∧
          ∃ res ∈ (serve sampleLib (some [roboto]) initialState
              [⟨requestList, netDown⟩, stepServed]).trace,
            Event.get gf.Files.Regular (FetchResult.ok status body) ∈ res.events :=
  ⟨by decide,
    cache_entries_come_from_fetches sampleLib (some [roboto])
      [⟨requestList, netDown⟩, stepServed] "Roboto" (by decide)⟩

/-! ## The cache only grows -/

/-- C5: in every cache reached from the empty cache of `main`, and for every next
request (list, not-found or render, whatever the network does), a key that has an
entry before the request has an entry with the same bytes after it, a key that has
an entry only after the request is the requested `font` value, and the cache has at
most one entry more. -/
theorem cache_only_grows {Font : Type} (lib : Lib Font) (fonts : GoogleFontsList)
    (steps : List Step) (st : Step) (k : String) :
    (mapHasKey (serve lib fonts initialState steps).googleFontFiles k = true →
        mapHasKey (handler lib fonts st.net (serve lib fonts initialState steps).googleFontFiles
            newResponseWriter st.r).googleFontFiles k = true
          ∧ mapIndex (handler lib fonts st.net
              (serve lib fonts initialState steps).googleFontFiles
              newResponseWriter st.r).googleFontFiles k
            = mapIndex (serve lib fonts initialState steps).googleFontFiles k)
      ∧ (mapHasKey (handler lib fonts st.net
            (serve lib fonts initialState steps).googleFontFiles
            newResponseWriter st.r).googleFontFiles k = true →
          mapHasKey (serve lib fonts initialState steps).googleFontFiles k = false →
          k = fontParam st.r)
      ∧ (handler lib fonts st.net (serve lib fonts initialState steps).googleFontFiles
            newResponseWriter st.r).googleFontFiles.length
          ≤ (serve lib fonts initialState steps).googleFontFiles.length + 1 := by
  have hnn := reachable_keys_hold_bytes lib fonts steps
  rcases handler_cache_cases lib fonts st.net
      (serve lib fonts initialState steps).googleFontFiles newResponseWriter st.r with
    h | ⟨gf, status, ba, _, _, hm, _, he⟩
  · rw [h]
    refine ⟨fun hk => ⟨hk, rfl⟩, fun hk hk' => ?_, Nat.le_succ _⟩
    rw [hk] at hk'
    exact Bool.noConfusion hk'
  · rw [he, render_cache]
    refine ⟨fun hk => ?_, fun hk hk' => ?_, mapAssign_length_le _ _ _⟩
    · have hne : k ≠ fontParam st.r := by
        intro hc
        subst hc
        exact hnn _ hk hm
      exact ⟨(mapHasKey_mapAssign _ _ _ _).mpr (Or.inr hk), mapIndex_mapAssign_ne _ _ _ _ hne⟩
    · rcases (mapHasKey_mapAssign _ _ _ _).mp hk with hc | hc
      · exact hc
      · rw [hc] at hk'
        exact Bool.noConfusion hk'

/-! ## One fetch per family -/

/-- C3 as stated fails for a catalog entry whose `Family` is the empty string: the
value `""` is present in the catalog and the cache has no entry for it, yet a
request with that `font` value takes the list branch of line 50, issues no GET and
stores nothing. -/
theorem empty_family_is_never_fetched :
    findFont (rangeFonts (some [nameless])) (fontParam (requestFor "")) = some nameless
      ∧ mapHasKey makeGoogleFontFilesMap (fontParam (requestFor "")) = false
      ∧ fetches (handler sampleLib (some [nameless]) (netServing [0, 1, 0, 0, 7])
          makeGoogleFontFilesMap newResponseWriter (requestFor "")).events = []
      ∧ (handler sampleLib (some [nameless]) (netServing [0, 1, 0, 0, 7])
          makeGoogleFontFilesMap newResponseWriter (requestFor "")).googleFontFiles = [] := by
  decide

/-- C3, amended: for every non-empty `font` value that the catalog lists, starting
from a cache with no entry for it, a request whose fetch comes back (with any bytes,
none at all included, and any status) issues exactly one GET, to the regular URL of
the first catalog entry of that family, and stores the bytes under the family; after
that, whatever requests are handled in between and whatever the network does, a
request for the same family issues no GET, parses the stored bytes and answers with
the PNG rendered from them. -/
theorem first_request_fetches_once_then_cached {Font : Type} (lib : Lib Font)
    (fonts : GoogleFontsList) (net : Net) (cache : GoogleFontFilesMap) (r : Request)
    (gf : GoogleFont) (status : Nat) (ba : Bytes)
    (hne : fontParam r ≠ "")
    (hfound : findFont (rangeFonts fonts) (fontParam r) = some gf)
    (hmiss : mapHasKey cache (fontParam r) = false)
    (hnet : net gf.Files.Regular = FetchResult.ok status ba) :
    fetches (handler lib fonts net cache newResponseWriter r).events = [gf.Files.Regular]
      ∧ mapIndex (handler lib fonts net cache newResponseWriter r).googleFontFiles
          (fontParam r) = some ba
      ∧ ∀ (steps : List Step) (alive : Bool) (trace : List HandlerResult) (net' : Net)
          (r' : Request), fontParam r' = fontParam r →
          fetches (handler lib fonts net'
              (serve lib fonts
                ⟨(handler lib fonts net cache newResponseWriter r).googleFontFiles, alive, trace⟩
                steps).googleFontFiles newResponseWriter r').events = []
            ∧ Event.parse (some ba) ∈ (handler lib fonts net'
              (serve lib fonts
                ⟨(handler lib fonts net cache newResponseWriter r).googleFontFiles, alive, trace⟩
                steps).googleFontFiles newResponseWriter r').events
            ∧ (handler lib fonts net'
              (serve lib fonts
                ⟨(handler lib fonts net cache newResponseWriter r).googleFontFiles, alive, trace⟩
                steps).googleFontFiles newResponseWriter r').w.body
              = renderedPng lib (fontParam r) (some ba) := by
  have hm : mapIndex cache (fontParam r) = none := mapIndex_none_of_not_hasKey _ _ hmiss
  have hfirst := handler_fetched lib fonts net cache newResponseWriter r gf status ba
    hne hfound hm hnet
  have hstored : mapIndex (handler lib fonts net cache newResponseWriter r).googleFontFiles
      (fontParam r) = some ba := by
    rw [hfirst, render_cache, mapIndex_mapAssign_self]
  refine ⟨?_, hstored, ?_⟩
  · rw [hfirst, render_fetches]
    simp [fetches]
  · intro steps alive trace net' r' hr'
    have hk := serve_keeps_bytes lib fonts steps
      ⟨(handler lib fonts net cache newResponseWriter r).googleFontFiles, alive, trace⟩
      (fontParam r) ba hstored
    have hne' : fontParam r' ≠ "" := by rw [hr']; exact hne
    have hfound' : findFont (rangeFonts fonts) (fontParam r') = some gf := by
      rw [hr']; exact hfound
    have hhit : mapIndex (serve lib fonts
        ⟨(handler lib fonts net cache newResponseWriter r).googleFontFiles, alive, trace⟩
        steps).googleFontFiles (fontParam r') ≠ none := by
      rw [hr', hk]
      exact fun hc => Option.noConfusion hc
    rw [handler_cached lib fonts net' _ newResponseWriter r' gf hne' hfound' hhit, hr']
    refine ⟨?_, ?_, ?_⟩
    · rw [render_fetches]
      simp [fetches]
    · rw [← hk]
      exact render_parse_mem _ _ _ _ _
    · rw [render_response, hk]

/-- C3, amended, on the one-entry catalog: the first request for Roboto fetches the
file once; after a list request and a request for an unknown family, with the font
host down, the next request for Roboto fetches nothing.  The same with a zero-length
file. -/
theorem first_request_fetches_once_then_cached_witness :
    fetches (handler sampleLib (some [roboto]) (netServing [0, 1, 0, 0, 7]) []
        newResponseWriter (requestFor "Roboto")).events
        = ["https://fonts.example/Roboto.ttf"]
      ∧ fetches (handler sampleLib (some [roboto]) netDown
          (serve sampleLib (some [roboto])
            ⟨(handler sampleLib (some [roboto]) (netServing [0, 1, 0, 0, 7]) []
              newResponseWriter (requestFor "Roboto")).googleFontFiles, true, []⟩
            [⟨requestList, netDown⟩, ⟨requestFor "Unknown", netDown⟩]).googleFontFiles
          newResponseWriter (requestFor "Roboto")).events = []
      ∧ fetches (handler sampleLib (some [roboto]) netDown
          (serve sampleLib (some [roboto])
            ⟨(handler sampleLib (some [roboto]) (netServing []) []
              newResponseWriter (requestFor "Roboto")).googleFontFiles, true, []⟩
            []).googleFontFiles
          newResponseWriter (requestFor "Roboto")).events = [] :=
  ⟨(first_request_fetches_once_then_cached sampleLib (some [roboto])
      (netServing [0, 1, 0, 0, 7]) [] (requestFor "Roboto") roboto 200 [0, 1, 0, 0, 7]
      (by decide) (by decide) (by decide) (by rfl)).1,
    ((first_request_fetches_once_then_cached sampleLib (some [roboto])
      (netServing [0, 1, 0, 0, 7]) [] (requestFor "Roboto") roboto 200 [0, 1, 0, 0, 7]
      (by decide) (by decide) (by decide) (by rfl)).2.2
      [⟨requestList, netDown⟩, ⟨requestFor "Unknown", netDown⟩] true [] netDown
      (requestFor "Roboto") rfl).1,
    ((first_request_fetches_once_then_cached sampleLib (some [roboto])
      (netServing []) [] (requestFor "Roboto") roboto 200 []
      (by decide) (by decide) (by decide) (by rfl)).2.2
      [] true [] netDown (requestFor "Roboto") rfl).1⟩

/-! ## The PNG response -/

theorem render_isPngResponse {Font : Type} (lib : Lib Font) (cache : GoogleFontFilesMap)
    (font : String) (ev : List Event) (ba : Bytes) (f : Font)
    (hidx : mapIndex cache font = some ba) (hparse : lib.Parse ba = Except.ok f)
    (hpng : ∀ m, (lib.pngEncode m).1 ≠ []) :
    IsPngResponse lib font f (render lib newResponseWriter cache font ev).w := by
  have hbody : renderedPng lib font (some ba)
      = (lib.pngEncode (lib.DrawString (drawingContext (some f)) font (Pt 10 25))).1 := by
    rw [renderedPng_eq]
    simp [hparse, Except.toOption, Pt]
  rw [render_response, hidx]
  refine ⟨rfl, ?_, ?_, ?_, hbody⟩
  · simp [headerGet, List.lookup]
  · simp [headerGet, List.lookup]
  · show renderedPng lib font (some ba) ≠ []
    rw [hbody]
    exact hpng _

/-- C7 as stated fails for a catalog entry whose `Family` is the empty string: its
regular URL is reachable and serves a file that parses, yet a request with that
`font` value is answered with the JSON list and not with a PNG. -/
theorem empty_family_is_answered_with_the_list :
    findFont (rangeFonts (some [nameless])) (fontParam (requestFor "")) = some nameless
      ∧ netServing [0, 1, 0, 0, 7] nameless.Files.Regular = FetchResult.ok 200 [0, 1, 0, 0, 7]
      ∧ sampleLib.Parse [0, 1, 0, 0, 7] = Except.ok [0, 1, 0, 0, 7]
      ∧ headerGet (handler sampleLib (some [nameless]) (netServing [0, 1, 0, 0, 7])
          makeGoogleFontFilesMap newResponseWriter (requestFor "")).w.header "Content-Type"
          = "application/json"
      ∧ headerGet (handler sampleLib (some [nameless]) (netServing [0, 1, 0, 0, 7])
          makeGoogleFontFilesMap newResponseWriter (requestFor "")).w.header "Content-Length"
          = "" :=
  ⟨by decide, by rfl, by rfl, by decide, by decide⟩

/-- C7, amended: for every non-empty `font` value that matches a catalog entry
whose regular URL is reachable and whose file parses as a font, the handler answers
the first request (cache without entry, file fetched) and every later request for
that family (after any requests in between, whatever the network does) with status
200, Content-Type `image/png`, a Content-Length equal to the decimal length of the
body written, and a non-empty body that is the PNG encoding of the 200 by 50 canvas
with the name drawn in the parsed font; that `png.Encode` writes at least one byte
is assumed of the encoder. -/
theorem known_font_yields_png {Font : Type} (lib : Lib Font) (fonts : GoogleFontsList)
    (net : Net) (cache : GoogleFontFilesMap) (r : Request) (gf : GoogleFont)
    (status : Nat) (ba : Bytes) (f : Font)
    (hne : fontParam r ≠ "")
    (hfound : findFont (rangeFonts fonts) (fontParam r) = some gf)
    (hmiss : mapHasKey cache (fontParam r) = false)
    (hnet : net gf.Files.Regular = FetchResult.ok status ba)
    (hparse : lib.Parse ba = Except.ok f)
    (hpng : ∀ m, (lib.pngEncode m).1 ≠ []) :
    IsPngResponse lib (fontParam r) f (handler lib fonts net cache newResponseWriter r).w
      ∧ ∀ (steps : List Step) (alive : Bool) (trace : List HandlerResult) (net' : Net)
          (r' : Request), fontParam r' = fontParam r →
          IsPngResponse lib (fontParam r) f (handler lib fonts net'
            (serve lib fonts
              ⟨(handler lib fonts net cache newResponseWriter r).googleFontFiles, alive, trace⟩
              steps).googleFontFiles newResponseWriter r').w := by
  have hm : mapIndex cache (fontParam r) = none := mapIndex_none_of_not_hasKey _ _ hmiss
  have hfirst := handler_fetched lib fonts net cache newResponseWriter r gf status ba
    hne hfound hm hnet
  have hstored : mapIndex (handler lib fonts net cache newResponseWriter r).googleFontFiles
      (fontParam r) = some ba := by
    rw [hfirst, render_cache, mapIndex_mapAssign_self]
  constructor
  · rw [hfirst]
    exact render_isPngResponse lib _ _ _ ba f (mapIndex_mapAssign_self _ _ _) hparse hpng
  · intro steps alive trace net' r' hr'
    have hk := serve_keeps_bytes lib fonts steps
      ⟨(handler lib fonts net cache newResponseWriter r).googleFontFiles, alive, trace⟩
      (fontParam r) ba hstored
    have hne' : fontParam r' ≠ "" := by rw [hr']; exact hne
    have hfound' : findFont (rangeFonts fonts) (fontParam r') = some gf := by
      rw [hr']; exact hfound
    have hhit : mapIndex (serve lib fonts
        ⟨(handler lib fonts net cache newResponseWriter r).googleFontFiles, alive, trace⟩
        steps).googleFontFiles (fontParam r') ≠ none := by
      rw [hr', hk]
      exact fun hc => Option.noConfusion hc
    rw [handler_cached lib fonts net' _ newResponseWriter r' gf hne' hfound' hhit, hr']
    exact render_isPngResponse lib _ _ _ ba f hk hparse hpng

/-- C7, amended, on the one-entry catalog: the first request for Roboto and, with
the font host down, the second one are both answered with a PNG. -/
theorem known_font_yields_png_witness :
    fontParam (requestFor "Roboto") ≠ ""
      ∧ IsPngResponse sampleLib "Roboto" [0, 1, 0, 0, 7]
          (handler sampleLib (some [roboto]) (netServing [0, 1, 0, 0, 7]) []
            newResponseWriter (requestFor "Roboto")).w
      ∧ IsPngResponse sampleLib "Roboto" [0, 1, 0, 0, 7]
          (handler sampleLib (some [roboto]) netDown
            (serve sampleLib (some [roboto])
              ⟨(handler sampleLib (some [roboto]) (netServing [0, 1, 0, 0, 7]) []
                newResponseWriter (requestFor "Roboto")).googleFontFiles, true, []⟩
              []).googleFontFiles newResponseWriter (requestFor "Roboto")).w :=
  ⟨by decide,
    (known_font_yields_png sampleLib (some [roboto]) (netServing [0, 1, 0, 0, 7]) []
      (requestFor "Roboto") roboto 200 [0, 1, 0, 0, 7] [0, 1, 0, 0, 7]
      (by decide) (by decide) (by decide) (by rfl) (by rfl)
      (by intro m; simp [sampleLib])).1,
    (known_font_yields_png sampleLib (some [roboto]) (netServing [0, 1, 0, 0, 7]) []
      (requestFor "Roboto") roboto 200 [0, 1, 0, 0, 7] [0, 1, 0, 0, 7]
      (by decide) (by decide) (by decide) (by rfl) (by rfl)
      (by intro m; simp [sampleLib])).2 [] true [] netDown (requestFor "Roboto") rfl⟩

/-! ## Determinism of the render path -/

theorem handler_rendersFrom {Font : Type} (lib : Lib Font) (fonts : GoogleFontsList)
    (net : Net) (cache : GoogleFontFilesMap) (r : Request) (gf : GoogleFont) (ba : Bytes)
    (hne : fontParam r ≠ "")
    (hfound : findFont (rangeFonts fonts) (fontParam r) = some gf)
    (hb : RendersFrom net cache gf (fontParam r) ba) :
    (handler lib fonts net cache newResponseWriter r).w =
      ⟨[("Content-Type", "image/png"),
          ("Content-Length", toString (renderedPng lib (fontParam r) (some ba)).length)],
        some 200, renderedPng lib (fontParam r) (some ba)⟩ := by
  rcases hb with hc | ⟨hm, status, hn⟩
  · have hhit : mapIndex cache (fontParam r) ≠ none := by
      rw [hc]; exact fun h => Option.noConfusion h
    rw [handler_cached lib fonts net cache _ r gf hne hfound hhit, render_response, hc]
  · rw [handler_fetched lib fonts net cache _ r gf status ba hne hfound hm hn,
      render_response, mapIndex_mapAssign_self]

/-- C9: two runs of the render path (the `font` value is non-empty and the catalog
lists it) for the same family name on the same font bytes write the same response,
byte for byte, whatever the two catalogs, the matched
entries, the other cache entries and the networks are, and whether the bytes were
cached or just fetched; the body is the PNG encoding of the image `DrawString`
leaves when drawing the family name at point (10, 25) in black, at 24 pt and 72 DPI,
on a canvas of 200 by 50 pixels of which every byte is 255 (white). -/
theorem render_is_deterministic {Font : Type} (lib : Lib Font)
    (fonts1 fonts2 : GoogleFontsList) (net1 net2 : Net) (cache1 cache2 : GoogleFontFilesMap)
    (r1 r2 : Request) (gf1 gf2 : GoogleFont) (ba : Bytes)
    (hne : fontParam r1 ≠ "") (hsame : fontParam r2 = fontParam r1)
    (hfound1 : findFont (rangeFonts fonts1) (fontParam r1) = some gf1)
    (hfound2 : findFont (rangeFonts fonts2) (fontParam r2) = some gf2)
    (hb1 : RendersFrom net1 cache1 gf1 (fontParam r1) ba)
    (hb2 : RendersFrom net2 cache2 gf2 (fontParam r2) ba) :
    (handler lib fonts1 net1 cache1 newResponseWriter r1).w
        = (handler lib fonts2 net2 cache2 newResponseWriter r2).w
      ∧ (handler lib fonts1 net1 cache1 newResponseWriter r1).w.body
        = (lib.pngEncode (lib.DrawString
            ⟨(lib.Parse ba).toOption, 24, 72, Rect 0 0 200 50, some whiteCanvas, some Black⟩
            (fontParam r1) ⟨10 * 64, 25 * 64⟩)).1
      ∧ whiteCanvas.rect = Rect 0 0 200 50
      ∧ whiteCanvas.pix.length = 4 * (200 * 50)
      ∧ (∀ b ∈ whiteCanvas.pix, b = 255)
      ∧ Black = ⟨0, 0, 0, 255⟩ := by
  have hne2 : fontParam r2 ≠ "" := by rw [hsame]; exact hne
  refine ⟨?_, ?_, whiteCanvas_rect, whiteCanvas_length, whiteCanvas_white, rfl⟩
  · rw [handler_rendersFrom lib fonts1 net1 cache1 r1 gf1 ba hne hfound1 hb1,
      handler_rendersFrom lib fonts2 net2 cache2 r2 gf2 ba hne2 hfound2 hb2, hsame]
  · rw [handler_rendersFrom lib fonts1 net1 cache1 r1 gf1 ba hne hfound1 hb1, renderedPng_eq]
    rfl

/-- C9 on two runs for Roboto: one fetches the file on the one-entry catalog, the
other finds it cached, next to another entry, on a two-entry catalog. -/
theorem render_is_deterministic_witness :
    (handler sampleLib (some [roboto]) (netServing [0, 1, 0, 0, 7]) []
        newResponseWriter (requestFor "Roboto")).w
      = (handler sampleLib (some [nameless, roboto]) netDown
          [("Lato", some [1]), ("Roboto", some [0, 1, 0, 0, 7])]
          newResponseWriter (requestFor "Roboto")).w :=
  (render_is_deterministic sampleLib (some [roboto]) (some [nameless, roboto])
    (netServing [0, 1, 0, 0, 7]) netDown []
    [("Lato", some [1]), ("Roboto", some [0, 1, 0, 0, 7])]
    (requestFor "Roboto") (requestFor "Roboto") roboto roboto [0, 1, 0, 0, 7]
    (by decide) rfl (by decide) (by decide)
    (Or.inr ⟨by decide, 200, by rfl⟩) (Or.inl (by decide))).1

/-! ## Fetch failures -/

/-- For a non-empty `font` value that matches a catalog entry and under which
nothing is cached, the handler issues the GET of the entry's regular URL. -/
theorem uncached_font_is_fetched {Font : Type} (lib : Lib Font) (fonts : GoogleFontsList)
    (net : Net) (cache : GoogleFontFilesMap) (r : Request) (gf : GoogleFont)
    (hne : fontParam r ≠ "")
    (hfound : findFont (rangeFonts fonts) (fontParam r) = some gf)
    (hmiss : mapIndex cache (fontParam r) = none) :
    Event.get gf.Files.Regular (net gf.Files.Regular)
      ∈ (handler lib fonts net cache newResponseWriter r).events := by
  cases hn : net gf.Files.Regular with
  | ok status ba =>
    rw [handler_fetched lib fonts net cache _ r gf status ba hne hfound hmiss hn]
    exact render_events_mem _ _ _ _ _ _ (List.mem_singleton.mpr rfl)
  | getErr err =>
    obtain ⟨e, he⟩ := handler_fatal lib fonts net cache newResponseWriter r gf hne hfound
      hmiss (by intro s b; rw [hn]; exact fun hc => FetchResult.noConfusion hc)
    rw [he, hn]
    simp
  | readErr status err =>
    obtain ⟨e, he⟩ := handler_fatal lib fonts net cache newResponseWriter r gf hne hfound
      hmiss (by intro s b; rw [hn]; exact fun hc => FetchResult.noConfusion hc)
    rw [he, hn]
    simp

/-- C10: for a `font` value that matches a catalog entry and under which nothing is
cached, when the GET of the entry's regular URL that the handler issues comes back
with an error of `client.Get` or of `io.ReadAll`, the handler ends the process
(`log.Fatal`): nothing has been written to the response, the cache is as it was and
holds nothing for the family, and the GET and the fatal log are the only effects,
so parsing, drawing and encoding are not reached. -/
theorem fetch_failure_is_fatal {Font : Type} (lib : Lib Font) (fonts : GoogleFontsList)
    (net : Net) (cache : GoogleFontFilesMap) (r : Request) (gf : GoogleFont)
    (res : FetchResult)
    (hfound : findFont (rangeFonts fonts) (fontParam r) = some gf)
    (hmiss : mapIndex cache (fontParam r) = none)
    (hget : Event.get gf.Files.Regular res
      ∈ (handler lib fonts net cache newResponseWriter r).events)
    (herr : res.isError = true) :
    (handler lib fonts net cache newResponseWriter r).outcome = Outcome.exited
      ∧ (handler lib fonts net cache newResponseWriter r).w = newResponseWriter
      ∧ (handler lib fonts net cache newResponseWriter r).googleFontFiles = cache
      ∧ mapIndex (handler lib fonts net cache newResponseWriter r).googleFontFiles
          (fontParam r) = none
      ∧ ∃ err, (handler lib fonts net cache newResponseWriter r).events
          = [Event.get gf.Files.Regular res, Event.fatal err] := by
  by_cases hne : fontParam r = ""
  · rw [handler_list lib fonts net cache _ r hne] at hget
    simp at hget
  · cases hn : net gf.Files.Regular with
    | ok status ba =>
      rw [handler_fetched lib fonts net cache _ r gf status ba hne hfound hmiss hn] at hget
      have hmem := render_get_mem _ _ _ _ _ _ _ hget
      rw [List.mem_singleton] at hmem
      injection hmem with _ hres
      rw [hres] at herr
      simp [FetchResult.isError] at herr
    | getErr err =>
      obtain ⟨e, he⟩ := handler_fatal lib fonts net cache newResponseWriter r gf hne hfound
        hmiss (by intro s b; rw [hn]; exact fun hc => FetchResult.noConfusion hc)
      rw [he] at hget ⊢
      have hres : res = net gf.Files.Regular := by simpa using hget
      rw [hres]
      exact ⟨rfl, rfl, rfl, hmiss, e, rfl⟩
    | readErr status err =>
      obtain ⟨e, he⟩ := handler_fatal lib fonts net cache newResponseWriter r gf hne hfound
        hmiss (by intro s b; rw [hn]; exact fun hc => FetchResult.noConfusion hc)
      rw [he] at hget ⊢
      have hres : res = net gf.Files.Regular := by simpa using hget
      rw [hres]
      exact ⟨rfl, rfl, rfl, hmiss, e, rfl⟩

/-- C10 on the one-entry catalog with the font host down. -/
theorem fetch_failure_is_fatal_witness :
    Event.get roboto.Files.Regular (FetchResult.getErr "dial tcp: connection refused")
        ∈ (handler sampleLib (some [roboto]) netDown [] newResponseWriter
            (requestFor "Roboto")).events
      ∧ (handler sampleLib (some [roboto]) netDown [] newResponseWriter
          (requestFor "Roboto")).outcome = Outcome.exited
      ∧ (handler sampleLib (some [roboto]) netDown [] newResponseWriter
          (requestFor "Roboto")).w = newResponseWriter
      ∧ (handler sampleLib (some [roboto]) netDown [] newResponseWriter
          (requestFor "Roboto")).googleFontFiles = [] :=
  ⟨by decide,
    (fetch_failure_is_fatal sampleLib (some [roboto]) netDown [] (requestFor "Roboto") roboto
      (FetchResult.getErr "dial tcp: connection refused") (by decide) (by decide)
      (by decide) (by decide)).1,
    (fetch_failure_is_fatal sampleLib (some [roboto]) netDown [] (requestFor "Roboto") roboto
      (FetchResult.getErr "dial tcp: connection refused") (by decide) (by decide)
      (by decide) (by decide)).2.1,
    (fetch_failure_is_fatal sampleLib (some [roboto]) netDown [] (requestFor "Roboto") roboto
      (FetchResult.getErr "dial tcp: connection refused") (by decide) (by decide)
      (by decide) (by decide)).2.2.1⟩

end GFontPreview
